import Mathlib

/-!
Shallow embedding of `src/lib/document_processor.py` (class `DocumentProcessor`)
from the NeuroLearn repository, together with proofs about the claims of its
specification.

Modelling conventions:
* Python strings are Lean `String`s; `str.strip()` is `pyStrip` (Python strips
  Unicode whitespace; the claims only involve ASCII whitespace, which is what
  `pyStrip` handles, matching CPython for every string appearing here).
* The external world observed by one invocation (the outcomes of
  `docx.Document(path)`, `zipfile.ZipFile(path)`, `ET.parse` on the archive
  member, and `os.stat(path)`) is a `FileModel`; a raised Python exception is
  `Except.error msg`.
* An `xml.etree.ElementTree.Element` is an `XmlElem`: a tag, optional `text`,
  optional `tail`, and a list of children.  CPython allows non-string tags
  (`ET.Comment` / `ET.ProcessingInstruction` produce elements whose tag is a
  function); `Element.itertext` skips any element whose tag is not a string
  (together with its whole subtree), while `Element.iter()` visits every
  element.  `Tag` keeps exactly that distinction.
-/

/-- ASCII whitespace as recognised by Python's `str.strip()` / `str.isspace()`
(space, tab, newline, carriage return, vertical tab, form feed).  Python also
strips some rare Unicode space characters; none occur in this development. -/
def isPySpace (c : Char) : Bool :=
  c = ' ' || c = '\t' || c = '\n' || c = '\r' || c = '\x0b' || c = '\x0c'

/-- `str.strip()` on the underlying character list: drop trailing whitespace,
then leading whitespace. -/
def stripChars (l : List Char) : List Char :=
  (l.rdropWhile isPySpace).dropWhile isPySpace

/-- Python `str.strip()`. -/
def pyStrip (s : String) : String := String.mk (stripChars s.data)

/-- Python `s.startswith(pre)`. -/
def pyStartswith (s pre : String) : Bool := pre.data.isPrefixOf s.data

/-- Python `''.join(parts)`. -/
def pyJoin (parts : List String) : String := String.join parts

/-- Python `str.lower()`, character by character (ASCII case mapping; the
paths this program sees contain only ASCII). -/
def pyLower (s : String) : String := String.mk (s.data.map Char.toLower)

/-- Python `sep.join(parts)`: the parts interleaved with `sep`. -/
def pySepJoin (sep : String) : List String → String
  | [] => ""
  | a :: rest => rest.foldl (fun acc x => acc ++ sep ++ x) a

/-! ## The element-tree model (`xml.etree.ElementTree`) -/

/-- An ElementTree tag.  `ET.parse` with the default parser produces only
string tags, but `Element` trees in general may also hold elements created by
`ET.Comment` / `ET.ProcessingInstruction`, whose tag is a function object, not
a string; `comment` stands for any such non-string tag. -/
inductive Tag where
  | str (s : String)
  | comment
  deriving DecidableEq

/-- An `xml.etree.ElementTree.Element`: tag, `.text`, `.tail`, children. -/
inductive XmlElem : Type where
  | mk (tag : Tag) (text : Option String) (tail : Option String)
      (children : List XmlElem)

def XmlElem.tag : XmlElem → Tag
  | .mk t _ _ _ => t

def XmlElem.text : XmlElem → Option String
  | .mk _ t _ _ => t

def XmlElem.tail : XmlElem → Option String
  | .mk _ _ t _ => t

def XmlElem.children : XmlElem → List XmlElem
  | .mk _ _ _ c => c

/-- `if t: yield t` on an optional string: `None` and `''` are falsy and
yield nothing. -/
def optText : Option String → List String
  | some t => if t = "" then [] else [t]
  | none => []

mutual
/-- CPython `Element.itertext`: returns nothing when the element's tag is not
a string (skipping the whole subtree); otherwise yields `self.text` (if
truthy), then for each child its own `itertext` followed by that child's
`tail` (if truthy). -/
def itertext : XmlElem → List String
  | .mk tag text _ children =>
    match tag with
    | .comment => []
    | .str _ => optText text ++ itertextList children
/-- The `for e in self: yield from e.itertext(); if e.tail: yield e.tail`
loop of CPython `Element.itertext`. -/
def itertextList : List XmlElem → List String
  | [] => []
  | c :: rest => (itertext c ++ optText c.tail) ++ itertextList rest
end

mutual
/-- CPython `Element.iter()` (no tag filter): yields the element itself, then
recursively every element of every child subtree, depth first.  Unlike
`itertext` there is no string-tag check. -/
def iterElems : XmlElem → List XmlElem
  | .mk tag text tl children =>
    XmlElem.mk tag text tl children :: iterElemsList children
def iterElemsList : List XmlElem → List XmlElem
  | [] => []
  | c :: rest => iterElems c ++ iterElemsList rest
end

/-- The namespace-qualified paragraph tag `w:p` with
`w = http://schemas.openxmlformats.org/wordprocessingml/2006/main`, as
ElementTree stores it in `Element.tag`. -/
def wpTag : Tag :=
  .str "{http://schemas.openxmlformats.org/wordprocessingml/2006/main}p"

mutual
/-- Elements of this subtree (self included) whose tag is `wpTag`, in
document order. -/
def findParas : XmlElem → List XmlElem
  | .mk tag text tl children =>
    (if tag = wpTag then [XmlElem.mk tag text tl children] else [])
      ++ findParasList children
def findParasList : List XmlElem → List XmlElem
  | [] => []
  | c :: rest => findParas c ++ findParasList rest
end

/-- `root.findall('.//w:p', namespaces)`: every matching proper descendant of
`root` in document order; `.//` excludes the root itself. -/
def findallParas (root : XmlElem) : List XmlElem := findParasList root.children

/-! ## `_extract_formatted_text` -/

/-- Tier 1 of `_extract_formatted_text`: the
`for para in paragraphs: ... if para_text.strip(): text_parts.append(...)`
loop. -/
def tier1Items (root : XmlElem) : List String :=
  (findallParas root).foldl
    (fun acc para =>
      if pyStrip (pyJoin (itertext para)) ≠ "" then
        acc ++ [pyStrip (pyJoin (itertext para))]
      else acc) []

/-- Tier 2 of `_extract_formatted_text`: `all_text = ''.join(root.itertext())`,
kept as the sole item when its stripped form is non-empty. -/
def tier2Items (root : XmlElem) : List String :=
  if pyStrip (pyJoin (itertext root)) ≠ "" then
    [pyStrip (pyJoin (itertext root))]
  else []

/-- `if elem.text and elem.text.strip(): text_parts.append(elem.text.strip())`
(and the same for `elem.tail`). -/
def textItem : Option String → List String
  | some t => if t ≠ "" ∧ pyStrip t ≠ "" then [pyStrip t] else []
  | none => []

/-- Tier 3 of `_extract_formatted_text`: the `for elem in root.iter():` walk
collecting stripped direct text and tail text of every element. -/
def tier3Items (root : XmlElem) : List String :=
  (iterElems root).foldl
    (fun acc e => (acc ++ textItem e.text) ++ textItem e.tail) []

/-- The `text_parts` list of `_extract_formatted_text` after all three tiers:
tier 2 runs only when tier 1 produced nothing, tier 3 only when tiers 1 and 2
produced nothing. -/
def formattedItems (root : XmlElem) : List String :=
  let tp1 := tier1Items root
  let tp2 := if tp1 = [] then tier2Items root else tp1
  if tp2 = [] then tier3Items root else tp2

/-- `DocumentProcessor._extract_formatted_text`:
`return '\n\n'.join(text_parts)`. -/
def extract_formatted_text (root : XmlElem) : String :=
  pySepJoin "\n\n" (formattedItems root)

/-! ## The structured path (`python-docx`) -/

/-- The view of a `docx.Document` that `extract_docx_content` reads: the
`.text` of each of `doc.paragraphs` in order, and for each of `doc.tables`
the `.text` of each cell of each row, in order. -/
structure PyDoc where
  paragraphs : List String
  tables : List (List (List String))

/-- The `text_parts` list built by the paragraph loop and then the table loop
of `extract_docx_content`: stripped non-empty paragraph texts, then for each
table row its stripped non-empty cell texts joined by `' | '` (rows whose
`row_text` stays empty are skipped). -/
def structuredItems (d : PyDoc) : List String :=
  let ps := d.paragraphs.foldl
    (fun acc p => if pyStrip p ≠ "" then acc ++ [pyStrip p] else acc) []
  d.tables.foldl
    (fun acc table => table.foldl
      (fun acc row =>
        let rowText := row.foldl
          (fun rt c => if pyStrip c ≠ "" then rt ++ [pyStrip c] else rt) []
        if rowText ≠ [] then acc ++ [pySepJoin " | " rowText] else acc)
      acc)
    ps

/-- The `return '\n\n'.join(text_parts)` of the structured path. -/
def structuredExtract (d : PyDoc) : String :=
  pySepJoin "\n\n" (structuredItems d)

/-! ## The external world of one invocation -/

/-- What `zipfile.ZipFile(file_path)` yields when it opens: the member list
(`namelist()`), and the outcome of `ET.parse` on the `word/document.xml`
member (an exception or a parsed root element). -/
structure ZipArchive where
  names : List String
  parseDoc : Except String XmlElem

/-- The fields of `os.stat` that `get_document_metadata` reads. -/
structure StatInfo where
  st_size : Nat

/-- The outcomes of every fallible external operation the processor performs
on one file path: `docx.Document(path)`, `zipfile.ZipFile(path)` and
`os.stat(path)`.  `Except.error msg` is a raised Python exception with
message `msg`. -/
structure FileModel where
  docResult : Except String PyDoc
  zipResult : Except String ZipArchive
  statResult : Except String StatInfo

/-- `try: body except Exception as e: handler(e)` in the exception monad. -/
def pyTry (body : Except String α) (handler : String → Except String α) :
    Except String α :=
  match body with
  | .ok a => .ok a
  | .error e => handler e

/-- `DocumentProcessor._extract_docx_manual` in the exception monad: open the
archive, look for `word/document.xml` in `namelist()`, parse it and extract;
a missing member yields the sentinel string, and the `except Exception`
handler converts any raised exception into an error-prefixed string. -/
def extract_docx_manualE (f : FileModel) : Except String String :=
  pyTry
    (do
      let z ← f.zipResult
      if z.names.contains "word/document.xml" then do
        let root ← z.parseDoc
        pure (extract_formatted_text root)
      else
        pure "Error: Could not find document.xml in DOCX file")
    (fun e => pure ("Error extracting DOCX content: " ++ e))

/-- `DocumentProcessor.extract_docx_content` in the exception monad: the
structured path, whose `except Exception` handler logs and falls back to
`_extract_docx_manual`. -/
def extract_docx_contentE (f : FileModel) : Except String String :=
  pyTry
    (do
      let d ← f.docResult
      pure (structuredExtract d))
    (fun _ => extract_docx_manualE f)

/-- `DocumentProcessor.extract_docx_content` as the plain string the caller
receives; the `.error` branch is unreachable because every handler returns
`.ok`. -/
def extract_docx_content (f : FileModel) : String :=
  match extract_docx_contentE f with
  | .ok s => s
  | .error e => e

/-! ## Metadata and orchestration -/

/-- A value stored in the metadata dict. -/
inductive MetaVal where
  | str (s : String)
  | int (n : Nat)
  | bool (b : Bool)
  deriving DecidableEq

/-- The metadata dict, as an insertion-ordered association list. -/
abbrev Metadata := List (String × MetaVal)

/-- Python `metadata[key] = v`: replaces the value in place when the key is
present, appends a new entry otherwise (dicts preserve insertion order). -/
def dictSet (m : Metadata) (k : String) (v : MetaVal) : Metadata :=
  if m.any (fun p => p.1 == k) then
    m.map (fun p => if p.1 == k then (k, v) else p)
  else m ++ [(k, v)]

/-- Python `key in metadata`. -/
def dictHas (m : Metadata) (k : String) : Bool :=
  m.any (fun p => p.1 == k)

/-- `os.path.basename` with the `/` separator: the longest suffix of the
path containing no separator. -/
def pyBasename (path : String) : String :=
  String.mk (path.data.rtakeWhile (fun c => c != '/'))

/-- `os.path.splitext(path)[1]` with the `/` separator: the extension starts
at the last dot of the final path component; when everything before that dot
in the component is itself a dot (e.g. a hidden file such as `.bashrc`),
there is no extension. -/
def splitextExt (path : String) : String :=
  let base := path.data.rtakeWhile (fun c => c != '/')
  let afterDot := base.rtakeWhile (fun c => c != '.')
  if afterDot.length = base.length then ""
  else if (base.rdrop (afterDot.length + 1)).any (fun c => c != '.') then
    String.mk ('.' :: afterDot)
  else ""

/-- `DocumentProcessor.get_document_metadata`: on a successful `os.stat`, the
five-key dict (with `content_length` and `extraction_success` initialised to
`0` and `False`); when `os.stat` raises, a one-key dict with only `error`. -/
def get_document_metadata (f : FileModel) (path : String) : Metadata :=
  match f.statResult with
  | .ok st =>
      [("file_path", .str path),
       ("file_name", .str (pyBasename path)),
       ("file_size", .int st.st_size),
       ("content_length", .int 0),
       ("extraction_success", .bool false)]
  | .error e => [("error", .str ("Could not get metadata: " ++ e))]

/-- `DocumentProcessor.process_document`: collect metadata, return early on a
metadata error, otherwise dispatch on the lower-cased extension, then update
`content_length` and `extraction_success`
(`len(content) > 0 and not content.startswith('Error')`). -/
def process_document (f : FileModel) (path : String) : String × Metadata :=
  let metadata := get_document_metadata f path
  if dictHas metadata "error" then ("", metadata)
  else
    let file_ext := pyLower (splitextExt path)
    let content :=
      if file_ext = ".docx" then extract_docx_content f
      else "Unsupported file format: " ++ file_ext
    let metadata1 := dictSet metadata "content_length" (.int content.length)
    let metadata2 := dictSet metadata1 "extraction_success"
      (.bool (decide (0 < content.length) && ! pyStartswith content "Error"))
    (content, metadata2)

/-- What one iteration of the tier-1 paragraph loop appends to `text_parts`. -/
def paraEmit (para : XmlElem) : List String :=
  if pyStrip (pyJoin (itertext para)) ≠ "" then
    [pyStrip (pyJoin (itertext para))]
  else []

/-- What one iteration of the tier-3 walk appends to `text_parts`. -/
def walkEmit (e : XmlElem) : List String := textItem e.text ++ textItem e.tail

/-- What one iteration of the structured paragraph loop appends. -/
def paragraphEmit (p : String) : List String :=
  if pyStrip p ≠ "" then [pyStrip p] else []

/-- What one iteration of the structured cell loop appends to `row_text`. -/
def cellEmit (c : String) : List String :=
  if pyStrip c ≠ "" then [pyStrip c] else []

/-- What one structured table row contributes to `text_parts`. -/
def rowEmit (row : List String) : List String :=
  if row.flatMap cellEmit ≠ [] then [pySepJoin " | " (row.flatMap cellEmit)]
  else []

/-! ## Definitions used by individual claims -/

/-- The items of the structured path as the specification words them:
the trimmed non-empty paragraph texts (all paragraphs first, in order),
followed by, for each table row with at least one non-empty cell, its
trimmed non-empty cell texts joined by `' | '`. -/
def structuredItemsSpec (d : PyDoc) : List String :=
  (d.paragraphs.map pyStrip).filter (fun s => s ≠ "")
    ++ (d.tables.flatMap id).filterMap (fun row =>
        if (row.map pyStrip).filter (fun s => s ≠ "") = [] then none
        else some (pySepJoin " | " ((row.map pyStrip).filter (fun s => s ≠ ""))))

/-- The non-root elements of a tree: every element except the root itself. -/
def properElems (root : XmlElem) : List XmlElem := iterElemsList root.children

/-! ## Concrete instances used as witnesses and counterexamples -/

/-- A file whose `os.stat` succeeds but whose structured and archive opens
raise; extraction is never consulted for a non-`.docx` extension. -/
def fmStatOk : FileModel :=
  ⟨Except.error "no structured document", Except.error "no archive",
   Except.ok ⟨100⟩⟩

/-- An archive that opens but has no `word/document.xml` member. -/
def fmNoDocXml : FileModel :=
  ⟨Except.error "python-docx failed",
   Except.ok ⟨["word/styles.xml", "word/media/image1.png"],
              Except.error "never parsed"⟩,
   Except.ok ⟨10⟩⟩

/-- A file whose `os.stat` raises. -/
def fmStatErr : FileModel :=
  ⟨Except.ok ⟨["unused"], []⟩, Except.error "unused zip",
   Except.error "permission denied"⟩

/-- A root with direct text only: tier 1 finds no paragraph elements, tier 2
finds the text. -/
def c5Root : XmlElem := .mk (.str "document") (some " hello world ") none []

/-- A leaf carrying tail text. -/
def c6Grandchild : XmlElem := .mk (.str "g") none (some "X") []

/-- A comment-tagged wrapper: `itertext` skips its whole subtree, so the
tail of `c6Grandchild` is invisible to tiers 1 and 2. -/
def c6Child : XmlElem := .mk .comment none none [c6Grandchild]

/-- A tree with no text reachable by tiers 1 and 2 but tail text inside. -/
def c6Root : XmlElem := .mk (.str "r") none none [c6Child]

/-- A tree with no text at all. -/
def c8Root : XmlElem := .mk (.str "r") none none []

/-- A root with direct text `"y"`, used to exercise the fallback items. -/
def c7Root : XmlElem := .mk (.str "r") (some "y") none []

/-- A document with a single paragraph `"x"`. -/
def c7Doc : PyDoc := ⟨["x"], []⟩

/-- The end-to-end example document of the specification: two paragraphs and
one 2x2 table. -/
def c4Doc : PyDoc := ⟨["Para1", "Para2"], [[["A", "B"], ["C", "D"]]]⟩

theorem stripChars_idem (l : List Char) :
    stripChars (stripChars l) = stripChars l := by
  classical
  set y := l.rdropWhile isPySpace with hy
  set z := y.dropWhile isPySpace with hz
  show stripChars z = z
  rcases eq_or_ne z [] with h0 | h0
  · simp [stripChars, h0, List.rdropWhile, List.dropWhile]
  · -- the last element of `z` is the last element of `y`, which is not whitespace
    have hylast : ∀ hny : y ≠ [], ¬ isPySpace (y.getLast hny) := fun hny =>
      List.rdropWhile_last_not _ _ hny
    obtain ⟨pre, hpre⟩ : z <:+ y := by rw [hz]; exact List.dropWhile_suffix _
    have hyne : y ≠ [] := by
      intro hnil; rw [hnil] at hpre
      exact h0 (List.append_eq_nil.mp hpre).2
    have hlast? : y.getLast? = z.getLast? := by
      rw [← hpre]; exact List.getLast?_append_of_ne_nil pre h0
    have hzlast : ¬ isPySpace (z.getLast h0) := by
      have h1 := List.getLast?_eq_getLast y hyne
      have h2 := List.getLast?_eq_getLast z h0
      rw [h1, h2] at hlast?
      have := Option.some.inj hlast?
      rw [← this]
      exact hylast hyne
    have hrd : z.rdropWhile isPySpace = z :=
      List.rdropWhile_eq_self_iff.mpr (fun _ => hzlast)
    have hdw : z.dropWhile isPySpace = z := by
      rw [hz]; exact List.dropWhile_idempotent _ _
    rw [stripChars, hrd, hdw]

theorem pyStrip_idem (s : String) : pyStrip (pyStrip s) = pyStrip s := by
  simp [pyStrip, stripChars_idem]

/-! ## Loop-shape lemmas: the source's accumulate-by-append loops are
concatenations of per-iteration contributions -/

theorem foldl_append_flatMap {α β : Type} (h : α → List β) (l : List α) :
    ∀ acc : List β, l.foldl (fun a x => a ++ h x) acc = acc ++ l.flatMap h := by
  induction l with
  | nil => intro acc; simp
  | cons x rest ih =>
    intro acc
    simp only [List.foldl_cons, List.flatMap_cons, ih, List.append_assoc]

theorem tier1Items_eq (root : XmlElem) :
    tier1Items root = (findallParas root).flatMap paraEmit := by
  unfold tier1Items
  have hf : (fun (acc : List String) para =>
      if pyStrip (pyJoin (itertext para)) ≠ "" then
        acc ++ [pyStrip (pyJoin (itertext para))]
      else acc) = fun acc para => acc ++ paraEmit para := by
    funext acc para
    simp only [paraEmit]
    split <;> simp
  rw [hf, foldl_append_flatMap]
  simp

theorem tier3Items_eq (root : XmlElem) :
    tier3Items root = (iterElems root).flatMap walkEmit := by
  unfold tier3Items
  have hf : (fun (acc : List String) e =>
      (acc ++ textItem e.text) ++ textItem e.tail)
      = fun acc e => acc ++ walkEmit e := by
    funext acc e
    simp [walkEmit, List.append_assoc]
  rw [hf, foldl_append_flatMap]
  simp

theorem rowText_eq (row : List String) :
    row.foldl (fun rt c => if pyStrip c ≠ "" then rt ++ [pyStrip c] else rt) []
      = row.flatMap cellEmit := by
  have hf : (fun (rt : List String) c =>
      if pyStrip c ≠ "" then rt ++ [pyStrip c] else rt)
      = fun rt c => rt ++ cellEmit c := by
    funext rt c
    simp only [cellEmit]
    split <;> simp
  rw [hf, foldl_append_flatMap]
  simp

theorem structuredItems_eq (d : PyDoc) :
    structuredItems d
      = d.paragraphs.flatMap paragraphEmit
        ++ d.tables.flatMap (fun table => table.flatMap rowEmit) := by
  unfold structuredItems
  have hp : ∀ (acc : List String) (p : String),
      (if pyStrip p ≠ "" then acc ++ [pyStrip p] else acc)
        = acc ++ paragraphEmit p := by
    intro acc p; simp only [paragraphEmit]; split <;> simp
  have hc : ∀ (rt : List String) (c : String),
      (if pyStrip c ≠ "" then rt ++ [pyStrip c] else rt) = rt ++ cellEmit c := by
    intro rt c; simp only [cellEmit]; split <;> simp
  have hpc : paragraphEmit = cellEmit := rfl
  have hre : ∀ (acc : List String) (row : List String),
      (if row.flatMap paragraphEmit ≠ [] then
          acc ++ [pySepJoin " | " (row.flatMap paragraphEmit)]
        else acc) = acc ++ rowEmit row := by
    intro acc row; rw [hpc]; simp only [rowEmit]; split <;> simp
  simp only [hp, hc, foldl_append_flatMap, List.nil_append, hre]

/-! ## Boundary facts about stripped strings and joins -/

theorem str_eq_empty_iff (s : String) : s = "" ↔ s.data = [] := by
  cases s
  simp [String.ext_iff]

theorem stripChars_head (l : List Char) (c : Char)
    (h : (stripChars l).head? = some c) : isPySpace c = false := by
  have hne : stripChars l ≠ [] := by
    intro h0; rw [h0] at h; simp at h
  have hh := List.head_dropWhile_not isPySpace (l.rdropWhile isPySpace) hne
  rw [List.head?_eq_head hne] at h
  have hc := Option.some.inj h
  rw [← hc]
  exact hh

theorem stripChars_last (l : List Char) (c : Char)
    (h : (stripChars l).getLast? = some c) : isPySpace c = false := by
  have hne : stripChars l ≠ [] := by
    intro h0; rw [h0] at h; simp at h
  obtain ⟨pre, hpre⟩ : stripChars l <:+ l.rdropWhile isPySpace :=
    List.dropWhile_suffix _
  have hyne : l.rdropWhile isPySpace ≠ [] := by
    intro hnil; rw [hnil] at hpre
    exact hne (List.append_eq_nil.mp hpre).2
  have hlast? : (l.rdropWhile isPySpace).getLast? = (stripChars l).getLast? := by
    rw [← hpre]; exact List.getLast?_append_of_ne_nil pre hne
  have hylast := List.rdropWhile_last_not isPySpace l hyne
  rw [List.getLast?_eq_getLast _ hyne, h] at hlast?
  have hcc := Option.some.inj hlast?
  rw [← hcc]
  simpa using hylast

theorem stripChars_eq_self (l : List Char)
    (h1 : ∀ c, l.head? = some c → isPySpace c = false)
    (h2 : ∀ c, l.getLast? = some c → isPySpace c = false) :
    stripChars l = l := by
  have hrd : l.rdropWhile isPySpace = l := by
    apply List.rdropWhile_eq_self_iff.mpr
    intro hl
    have := h2 (l.getLast hl) (List.getLast?_eq_getLast l hl)
    simp [this]
  have hdw : l.dropWhile isPySpace = l := by
    apply List.dropWhile_eq_self_iff.mpr
    intro hl
    have hne : l ≠ [] := List.ne_nil_of_length_pos hl
    have := h1 (l.head hne) (List.head?_eq_head hne)
    rw [List.get_mk_zero]
    simp [this]
  rw [stripChars, hrd, hdw]

theorem pyStrip_eq_self (s : String)
    (h1 : ∀ c, s.data.head? = some c → isPySpace c = false)
    (h2 : ∀ c, s.data.getLast? = some c → isPySpace c = false) :
    pyStrip s = s := by
  unfold pyStrip
  rw [stripChars_eq_self s.data h1 h2]

theorem pySepJoin_data_cons (sep a : String) (rest : List String) :
    (pySepJoin sep (a :: rest)).data
      = a.data ++ rest.flatMap (fun x => sep.data ++ x.data) := by
  have hd : ∀ (u v : String), (u ++ v).data = u.data ++ v.data := fun u v => rfl
  show (rest.foldl (fun acc x => acc ++ sep ++ x) a).data = _
  induction rest generalizing a with
  | nil => simp
  | cons x rs ih =>
    simp only [List.foldl_cons, List.flatMap_cons]
    rw [ih]
    simp [hd, List.append_assoc]

theorem pySepJoin_head? (sep a : String) (rest : List String) (ha : a ≠ "") :
    (pySepJoin sep (a :: rest)).data.head? = a.data.head? := by
  rw [pySepJoin_data_cons]
  exact List.head?_append_of_ne_nil _ (fun hd => ha ((str_eq_empty_iff a).mpr hd))

theorem pySepJoin_getLast? (sep a : String) (rest : List String)
    (hne : ∀ s ∈ a :: rest, s ≠ "") :
    ∃ s ∈ a :: rest,
      (pySepJoin sep (a :: rest)).data.getLast? = s.data.getLast? := by
  rw [pySepJoin_data_cons]
  rcases List.eq_nil_or_concat rest with h | ⟨rs, x, h⟩
  · subst h
    exact ⟨a, by simp, by simp⟩
  · subst h
    have hx : x ≠ "" := hne x (by simp [List.concat_eq_append])
    have hxd : x.data ≠ [] := fun hd => hx ((str_eq_empty_iff x).mpr hd)
    refine ⟨x, by simp [List.concat_eq_append], ?_⟩
    rw [List.concat_eq_append, List.flatMap_append]
    simp only [List.flatMap_cons, List.flatMap_nil, List.append_nil]
    rw [← List.append_assoc, ← List.append_assoc]
    exact List.getLast?_append_of_ne_nil _ hxd

/-- A separator-join of `pyStrip`-fixed non-empty strings is itself
`pyStrip`-fixed and non-empty. -/
theorem pySepJoin_strip_fixed (sep a : String) (rest : List String)
    (hfix : ∀ s ∈ a :: rest, pyStrip s = s ∧ s ≠ "") :
    pyStrip (pySepJoin sep (a :: rest)) = pySepJoin sep (a :: rest)
      ∧ pySepJoin sep (a :: rest) ≠ "" := by
  have hbound : ∀ s ∈ a :: rest, ∀ c,
      (s.data.head? = some c ∨ s.data.getLast? = some c) →
        isPySpace c = false := by
    intro s hs c hc
    have hd : stripChars s.data = s.data := by
      calc stripChars s.data = (pyStrip s).data := rfl
      _ = s.data := by rw [(hfix s hs).1]
    rcases hc with hc | hc
    · exact stripChars_head s.data c (by rw [hd]; exact hc)
    · exact stripChars_last s.data c (by rw [hd]; exact hc)
  have hne : ∀ s ∈ a :: rest, s ≠ "" := fun s hs => (hfix s hs).2
  have ha : a ≠ "" := hne a (by simp)
  have hh := pySepJoin_head? sep a rest ha
  obtain ⟨s, hsmem, hsl⟩ := pySepJoin_getLast? sep a rest hne
  have hjoin_ne : pySepJoin sep (a :: rest) ≠ "" := by
    intro h0
    have h0d : (pySepJoin sep (a :: rest)).data = [] := by rw [h0]
    rw [h0d] at hh
    have had : a.data ≠ [] := fun hd => ha ((str_eq_empty_iff a).mpr hd)
    cases had' : a.data with
    | nil => exact had had'
    | cons c cs => rw [had'] at hh; simp at hh
  refine ⟨?_, hjoin_ne⟩
  apply pyStrip_eq_self
  · intro c hc
    rw [hh] at hc
    exact hbound a (by simp) c (Or.inl hc)
  · intro c hc
    rw [hsl] at hc
    exact hbound s hsmem c (Or.inr hc)

theorem pyStartswith_append_false (s t pre : String)
    (h : pyStartswith s pre = false)
    (hlen : pre.data.length ≤ s.data.length) :
    pyStartswith (s ++ t) pre = false := by
  unfold pyStartswith at h ⊢
  rw [Bool.eq_false_iff] at h ⊢
  intro hc
  apply h
  rw [List.isPrefixOf_iff_prefix] at hc ⊢
  have hst : (s ++ t).data = s.data ++ t.data := rfl
  rw [hst] at hc
  have htake := List.prefix_iff_eq_take.mp hc
  rw [List.take_append_of_le_length hlen] at htake
  rw [htake]
  exact List.take_prefix _ _

/-! ## Every appended item is a stripped non-empty string -/

theorem mem_stripEmit (raw s : String)
    (h : s ∈ (if pyStrip raw ≠ "" then [pyStrip raw] else [])) :
    pyStrip s = s ∧ s ≠ "" := by
  split at h
  · rename_i hcond
    have hs := List.mem_singleton.mp h
    subst hs
    exact ⟨pyStrip_idem raw, hcond⟩
  · simp at h

theorem mem_textItem (o : Option String) (s : String) (h : s ∈ textItem o) :
    pyStrip s = s ∧ s ≠ "" := by
  cases o with
  | none => simp [textItem] at h
  | some t =>
    simp only [textItem] at h
    split at h
    · rename_i hcond
      have hs := List.mem_singleton.mp h
      subst hs
      exact ⟨pyStrip_idem t, hcond.2⟩
    · simp at h

theorem mem_rowEmit (row : List String) (s : String) (h : s ∈ rowEmit row) :
    pyStrip s = s ∧ s ≠ "" := by
  unfold rowEmit at h
  split at h
  · rename_i hcond
    have hsj := List.mem_singleton.mp h
    cases hcells : row.flatMap cellEmit with
    | nil => rw [hcells] at hcond; simp at hcond
    | cons a rest =>
      subst hsj
      rw [hcells]
      apply pySepJoin_strip_fixed
      intro x hx
      rw [← hcells] at hx
      obtain ⟨c, _, hcx⟩ := List.mem_flatMap.mp hx
      exact mem_stripEmit c x (by simpa [cellEmit] using hcx)
  · simp at h

theorem mem_structuredItems (d : PyDoc) (s : String)
    (hs : s ∈ structuredItems d) : pyStrip s = s ∧ s ≠ "" := by
  rw [structuredItems_eq] at hs
  rcases List.mem_append.mp hs with hs | hs
  · obtain ⟨p, _, hp⟩ := List.mem_flatMap.mp hs
    exact mem_stripEmit p s (by simpa [paragraphEmit] using hp)
  · obtain ⟨table, _, ht⟩ := List.mem_flatMap.mp hs
    obtain ⟨row, _, hr⟩ := List.mem_flatMap.mp ht
    exact mem_rowEmit row s hr

theorem mem_formattedItems (root : XmlElem) (s : String)
    (hs : s ∈ formattedItems root) : pyStrip s = s ∧ s ≠ "" := by
  by_cases h1 : tier1Items root = []
  · by_cases h2 : tier2Items root = []
    · have hf : formattedItems root = tier3Items root := by
        simp [formattedItems, h1, h2]
      rw [hf, tier3Items_eq] at hs
      obtain ⟨e, _, he⟩ := List.mem_flatMap.mp hs
      rcases List.mem_append.mp (by simpa [walkEmit] using he) with h | h
      · exact mem_textItem _ s h
      · exact mem_textItem _ s h
    · have hf : formattedItems root = tier2Items root := by
        simp [formattedItems, h1, h2]
      rw [hf] at hs
      unfold tier2Items at hs
      split at hs
      · rename_i hcond
        have hx := List.mem_singleton.mp hs
        subst hx
        exact ⟨pyStrip_idem _, hcond⟩
      · simp at hs
  · have hf : formattedItems root = tier1Items root := by
      simp [formattedItems, h1]
    rw [hf, tier1Items_eq] at hs
    obtain ⟨p, _, hp⟩ := List.mem_flatMap.mp hs
    exact mem_stripEmit _ s (by simpa [paraEmit] using hp)

theorem iterElems_eq_cons (root : XmlElem) :
    iterElems root = root :: properElems root := by
  cases root
  rfl

theorem flatMap_paragraphEmit (l : List String) :
    l.flatMap paragraphEmit = (l.map pyStrip).filter (fun s => s ≠ "") := by
  induction l with
  | nil => rfl
  | cons p rest ih =>
    simp only [List.flatMap_cons, List.map_cons, List.filter_cons,
      paragraphEmit, ih]
    by_cases h : pyStrip p = ""
    · simp [h]
    · simp [h]

theorem flatMap_cellEmit (row : List String) :
    row.flatMap cellEmit = (row.map pyStrip).filter (fun s => s ≠ "") := by
  have h : cellEmit = paragraphEmit := rfl
  rw [h, flatMap_paragraphEmit]

theorem flatMap_rowEmit (rows : List (List String)) :
    rows.flatMap rowEmit
      = rows.filterMap (fun row =>
          if (row.map pyStrip).filter (fun s => s ≠ "") = [] then none
          else some (pySepJoin " | "
            ((row.map pyStrip).filter (fun s => s ≠ "")))) := by
  induction rows with
  | nil => rfl
  | cons row rest ih =>
    simp only [List.flatMap_cons, List.filterMap_cons, rowEmit,
      flatMap_cellEmit, ih]
    by_cases h : (row.map pyStrip).filter (fun s => s ≠ "") = []
    · rw [if_neg (not_not_intro h), if_pos h]
      simp
    · rw [if_pos h, if_neg h]
      simp

theorem tables_flatMap_rows (tables : List (List (List String))) :
    tables.flatMap (fun t => t.flatMap rowEmit)
      = (tables.flatMap id).flatMap rowEmit := by
  induction tables with
  | nil => rfl
  | cons t rest ih =>
    simp only [List.flatMap_cons, id_eq, List.flatMap_append, ih]

/-! ## The claims -/

/-- C2: for every archive that opens successfully but has no entry named
`word/document.xml`, `_extract_docx_manual` returns exactly the string
`"Error: Could not find document.xml in DOCX file"`, with no further
recovery attempted (the member parse outcome is never consulted). -/
theorem C2_missing_document_xml (f : FileModel) (z : ZipArchive)
    (hz : f.zipResult = Except.ok z)
    (hm : z.names.contains "word/document.xml" = false) :
    extract_docx_manualE f
      = Except.ok "Error: Could not find document.xml in DOCX file" := by
  unfold extract_docx_manualE pyTry
  rw [hz]
  have hmem : ¬ ("word/document.xml" ∈ z.names) := by simpa using hm
  simp [Bind.bind, Except.bind, hmem, Pure.pure, Except.pure]

/-- Witness for C2 on a concrete archive listing only other members. -/
theorem C2_missing_document_xml_witness :
    extract_docx_manualE fmNoDocXml
      = Except.ok "Error: Could not find document.xml in DOCX file" :=
  C2_missing_document_xml fmNoDocXml
    ⟨["word/styles.xml", "word/media/image1.png"], Except.error "never parsed"⟩
    rfl (by decide)

/-- C3: extraction never propagates an exception: for every file model,
`extract_docx_content` (in the exception monad, with both `except Exception`
handlers in place) terminates with `Except.ok` — a string — never with
`Except.error`. -/
theorem C3_extraction_never_raises (f : FileModel) :
    ∃ s : String, extract_docx_contentE f = Except.ok s := by
  unfold extract_docx_contentE pyTry
  cases hd : f.docResult with
  | ok d => exact ⟨structuredExtract d, rfl⟩
  | error e =>
    unfold extract_docx_manualE pyTry
    cases hz : f.zipResult with
    | error ze => exact ⟨"Error extracting DOCX content: " ++ ze, rfl⟩
    | ok z =>
      by_cases hm : "word/document.xml" ∈ z.names
      · cases hp : z.parseDoc with
        | ok root =>
          exact ⟨extract_formatted_text root, by
            simp [hm, hp, Bind.bind, Except.bind, Pure.pure, Except.pure]⟩
        | error pe =>
          exact ⟨"Error extracting DOCX content: " ++ pe, by
            simp [hm, hp, Bind.bind, Except.bind, Pure.pure, Except.pure]⟩
      · exact ⟨"Error: Could not find document.xml in DOCX file", by
          simp [hm, Bind.bind, Except.bind, Pure.pure, Except.pure]⟩

/-- C9: extraction is deterministic in its input: the embedding exposes every
quantity the source reads (file bytes via the parse outcomes, member list,
stat fields) as the `FileModel`, and the result is a function of it, so two
invocations on the same unmodified content are byte-identical. -/
theorem C9_extraction_deterministic (f : FileModel) :
    extract_docx_content f = extract_docx_content f
      ∧ extract_docx_contentE f = extract_docx_contentE f :=
  ⟨rfl, rfl⟩

/-- C5: when no namespace-qualified paragraph element contributes
non-whitespace text (tier 1 empty) but the concatenation of all descendant
text under the root strips to something non-empty, `_extract_formatted_text`
returns that stripped concatenation as the sole item. -/
theorem C5_tier2_whole_tree_text (root : XmlElem)
    (h1 : tier1Items root = [])
    (h2 : pyStrip (pyJoin (itertext root)) ≠ "") :
    formattedItems root = [pyStrip (pyJoin (itertext root))]
      ∧ extract_formatted_text root = pyStrip (pyJoin (itertext root)) := by
  have ht2 : tier2Items root = [pyStrip (pyJoin (itertext root))] := by
    simp [tier2Items, h2]
  have hf : formattedItems root = [pyStrip (pyJoin (itertext root))] := by
    simp [formattedItems, h1, ht2]
  exact ⟨hf, by simp [extract_formatted_text, hf, pySepJoin]⟩

/-- Witness for C5 on a paragraph-free tree whose root carries text. -/
theorem C5_tier2_whole_tree_text_witness :
    formattedItems c5Root = ["hello world"]
      ∧ extract_formatted_text c5Root = "hello world" :=
  C5_tier2_whole_tree_text c5Root (by decide) (by decide)

/-- C6: when tiers 1 and 2 yield nothing but some non-root element carries
non-whitespace tail text, tier 3 runs and its result contains that stripped
tail as a separate item.  (`itertext` can miss such a tail only when the
element sits inside a non-string-tagged node, which `itertext` skips whole
while `iter()` does not.) -/
theorem C6_tier3_tail_text (root e : XmlElem) (t : String)
    (h1 : tier1Items root = [])
    (h2 : tier2Items root = [])
    (he : e ∈ properElems root)
    (ht : e.tail = some t)
    (hts : pyStrip t ≠ "") :
    formattedItems root = tier3Items root
      ∧ pyStrip t ∈ formattedItems root := by
  have hf : formattedItems root = tier3Items root := by
    simp [formattedItems, h1, h2]
  refine ⟨hf, ?_⟩
  rw [hf, tier3Items_eq]
  apply List.mem_flatMap.mpr
  refine ⟨e, ?_, ?_⟩
  · rw [iterElems_eq_cons]
    exact List.mem_cons_of_mem _ he
  · unfold walkEmit
    apply List.mem_append.mpr
    right
    rw [ht]
    have htne : t ≠ "" := by
      intro h0
      rw [h0] at hts
      exact hts rfl
    simp only [textItem]
    rw [if_pos ⟨htne, hts⟩]
    exact List.mem_singleton.mpr rfl

/-- Witness for C6: the tail `"X"` sits on a leaf inside a comment-tagged
wrapper, so tiers 1 and 2 see nothing, and tier 3 recovers it. -/
theorem C6_tier3_tail_text_witness :
    formattedItems c6Root = tier3Items c6Root
      ∧ pyStrip "X" ∈ formattedItems c6Root :=
  C6_tier3_tail_text c6Root c6Grandchild "X" (by decide) (by decide)
    (by
      have h : properElems c6Root = [c6Child, c6Grandchild] := rfl
      rw [h]
      exact List.mem_cons_of_mem _ (List.mem_cons_self _ _))
    rfl (by decide)

/-- C8: when all three tiers collect no items, `_extract_formatted_text`
returns the empty string, which is not an error-prefixed string. -/
theorem C8_all_tiers_empty (root : XmlElem)
    (h1 : tier1Items root = [])
    (h2 : tier2Items root = [])
    (h3 : tier3Items root = []) :
    extract_formatted_text root = ""
      ∧ pyStartswith (extract_formatted_text root) "Error" = false := by
  have hf : formattedItems root = [] := by
    simp [formattedItems, h1, h2, h3]
  have he : extract_formatted_text root = "" := by
    simp [extract_formatted_text, hf, pySepJoin]
  refine ⟨he, ?_⟩
  rw [he]
  decide

/-- Witness for C8 on a childless, textless root. -/
theorem C8_all_tiers_empty_witness :
    extract_formatted_text c8Root = ""
      ∧ pyStartswith (extract_formatted_text c8Root) "Error" = false :=
  C8_all_tiers_empty c8Root (by decide) (by decide) (by decide)

/-- C4: the structured path's output is exactly the spec-shaped item list —
trimmed non-empty paragraph texts first, then one `' | '`-joined item per
table row having a non-empty cell — joined pairwise by `"\n\n"`; and on the
two-paragraph, one-2x2-table example it is the exact expected string. -/
theorem C4_structured_output_shape (d : PyDoc) :
    structuredExtract d = pySepJoin "\n\n" (structuredItemsSpec d)
      ∧ structuredExtract c4Doc = "Para1\n\nPara2\n\nA | B\n\nC | D" := by
  constructor
  · unfold structuredExtract structuredItemsSpec
    rw [structuredItems_eq, flatMap_paragraphEmit, tables_flatMap_rows,
      flatMap_rowEmit]
  · decide

/-- C7: at every tier of both extractors, an empty or whitespace-only
paragraph, cell, text or tail contributes no item: every item that appears
in `text_parts` is its own strip and non-empty. -/
theorem C7_whitespace_only_excluded (d : PyDoc) (root : XmlElem) (s : String) :
    (s ∈ structuredItems d → pyStrip s = s ∧ s ≠ "")
      ∧ (s ∈ formattedItems root → pyStrip s = s ∧ s ≠ "") :=
  ⟨mem_structuredItems d s, mem_formattedItems root s⟩

/-- Witness for C7: the structured item `"x"` and fallback item `"y"` of two
concrete inputs are stripped and non-empty. -/
theorem C7_whitespace_only_excluded_witness :
    (pyStrip "x" = "x" ∧ "x" ≠ "") ∧ (pyStrip "y" = "y" ∧ "y" ≠ "") :=
  ⟨(C7_whitespace_only_excluded c7Doc c7Root "x").1 (by decide),
   (C7_whitespace_only_excluded c7Doc c7Root "y").2 (by decide)⟩

/-- C1 counterexample: the claim says a non-`.docx` extension yields the
"unsupported format" content with `extraction_success = False`; on the
concrete path `notes.doc` the content is indeed the descriptive string, but
the flag is `True` (the string is non-empty and does not start with
`'Error'`), so the claim is false as stated. -/
theorem C1_counterexample_doc_flag_true :
    (process_document fmStatOk "notes.doc").1
        = "Unsupported file format: .doc"
      ∧ (process_document fmStatOk "notes.doc").2.lookup "extraction_success"
          = some (MetaVal.bool true)
      ∧ (process_document fmStatOk "notes.doc").2.lookup "extraction_success"
          ≠ some (MetaVal.bool false) := by
  refine ⟨rfl, rfl, ?_⟩
  decide

/-- C1 as amended: for every path whose lower-cased extension is not
`.docx` (with readable stats), `process_document` returns the descriptive
"unsupported format" string as the content and sets `extraction_success`
to `true`, since that content is non-empty and not `'Error'`-prefixed. -/
theorem C1_amended_unsupported_ext (f : FileModel) (path : String)
    (st : StatInfo) (hstat : f.statResult = Except.ok st)
    (hext : pyLower (splitextExt path) ≠ ".docx") :
    process_document f path
      = ("Unsupported file format: " ++ pyLower (splitextExt path),
         [("file_path", MetaVal.str path),
          ("file_name", MetaVal.str (pyBasename path)),
          ("file_size", MetaVal.int st.st_size),
          ("content_length", MetaVal.int
            ("Unsupported file format: " ++ pyLower (splitextExt path)).length),
          ("extraction_success", MetaVal.bool true)]) := by
  have hsw : pyStartswith
      ("Unsupported file format: " ++ pyLower (splitextExt path)) "Error"
        = false :=
    pyStartswith_append_false _ _ _ (by decide) (by decide)
  have hlen : 0 < ("Unsupported file format: "
      ++ pyLower (splitextExt path)).length := by
    rw [String.length_append]
    have h25 : ("Unsupported file format: " : String).length = 25 := by decide
    omega
  unfold process_document get_document_metadata
  rw [hstat]
  simp [dictHas, dictSet, hext, hsw, hlen]
  exact Or.inl (by decide)

/-- Witness for the amended C1 at the `.doc` path of the counterexample. -/
theorem C1_amended_unsupported_ext_witness :
    process_document fmStatOk "notes.doc"
      = ("Unsupported file format: " ++ pyLower (splitextExt "notes.doc"),
         [("file_path", MetaVal.str "notes.doc"),
          ("file_name", MetaVal.str (pyBasename "notes.doc")),
          ("file_size", MetaVal.int 100),
          ("content_length", MetaVal.int
            ("Unsupported file format: "
              ++ pyLower (splitextExt "notes.doc")).length),
          ("extraction_success", MetaVal.bool true)]) :=
  C1_amended_unsupported_ext fmStatOk "notes.doc" ⟨100⟩ rfl (by decide)

/-- C10: when `os.stat` fails, `process_document` returns the empty string
together with the one-key `error` metadata; `content_length` and
`extraction_success` are absent, and no extraction is attempted (the result
is fixed before the extension dispatch is reached). -/
theorem C10_metadata_error_short_circuit (f : FileModel) (path e : String)
    (hstat : f.statResult = Except.error e) :
    process_document f path
      = ("", [("error", MetaVal.str ("Could not get metadata: " ++ e))])
      ∧ (process_document f path).2.lookup "content_length" = none
      ∧ (process_document f path).2.lookup "extraction_success" = none
      ∧ (process_document f path).2.lookup "error"
          = some (MetaVal.str ("Could not get metadata: " ++ e)) := by
  have h : process_document f path
      = ("", [("error", MetaVal.str ("Could not get metadata: " ++ e))]) := by
    unfold process_document get_document_metadata
    rw [hstat]
    simp [dictHas]
  refine ⟨h, ?_, ?_, ?_⟩ <;> rw [h] <;> rfl

/-- Witness for C10 on a concrete stat failure. -/
theorem C10_metadata_error_short_circuit_witness :
    process_document fmStatErr "doc.docx"
      = ("", [("error",
          MetaVal.str ("Could not get metadata: " ++ "permission denied"))])
      ∧ (process_document fmStatErr "doc.docx").2.lookup "content_length"
          = none
      ∧ (process_document fmStatErr "doc.docx").2.lookup "extraction_success"
          = none
      ∧ (process_document fmStatErr "doc.docx").2.lookup "error"
          = some (MetaVal.str ("Could not get metadata: "
              ++ "permission denied")) :=
  C10_metadata_error_short_circuit fmStatErr "doc.docx" "permission denied" rfl
